import Mathlib

/-!
Shallow embedding of the reference-counted smart pointer (`src/src/smart_ptr.c`,
first part) and of the MRU cache (`src/src/smart_ptr.c`, second part, declared
in `src/inc/azure_c_shared_utility/mru_cache.h`).

Modelling conventions:
* Machine `int` values (`refCount`, `numItems`, `maxItems`, expiry seconds)
  are `Int`; `time_t` timestamps are `Int` (whole seconds), and `difftime`
  is exact integer subtraction on them.
* A raw `void*` payload is `Option Nat` (`none` models a NULL pointer).
* C strings (`id`) are NUL-free byte lists `List Nat`; `strlen` is `List.length`.
* Allocation and lock-acquisition outcomes are environment booleans passed in
  explicitly (`true` = the call succeeded); the code's control flow on each
  outcome is transcribed from the source.
* `__FAILURE__` is the nonzero status `failureCode`; `0` is success.
-/

/-- The nonzero status returned by failing operations (`__FAILURE__`). -/
def failureCode : Int := 1

namespace SmartPtr

/-- Shared state of one smart-pointer allocation (`SMART_PTR_REF`): the
reference count, the wrapped data pointer and the registered destructor
(identified by a `Nat` tag).  All clones of one handle share this state.
`dtorLog` records every destructor invocation performed so far, as the pair
(destructor tag, argument it was called with); the C state has no such field,
it is the observation trace the theorems speak about. -/
structure World where
  refCount : Int
  data : Option Nat
  freeFunc : Nat
  dtorLog : List (Nat × Option Nat)
deriving Repr, DecidableEq

/-- `free_ref` (smart_ptr.c): invokes `ref->freeFunc(ref->data)`, then clears
`ref->data` and frees the shared state.  The invocation is recorded in
`dtorLog`. -/
def free_ref (w : World) : World :=
  { w with data := none, dtorLog := w.dtorLog ++ [(w.freeFunc, w.data)] }

/-- `SMART_PTR_create`: fails when `freeFunc` is NULL, when the handle
allocation (`callocOk`), the lock creation (`lockInitOk`) or the shared-state
allocation (`mallocOk`) fails; otherwise produces shared state with
`refCount = 1`, the given data pointer and destructor. -/
def SMART_PTR_create (callocOk lockInitOk mallocOk : Bool)
    (ptr : Option Nat) (freeFunc : Option Nat) : Option World :=
  match freeFunc with
  | none => none
  | some f =>
    if callocOk = false then none
    else if lockInitOk = false then none
    else if mallocOk = false then none
    else some { refCount := 1, data := ptr, freeFunc := f, dtorLog := [] }

/-- `SMART_PTR_copy`: allocates the new handle (`mallocOk`), then acquires the
lock; on lock failure the fresh handle is freed and the call fails with the
shared state untouched; on success the shared `refCount` is incremented.
Returns whether a cloned handle was produced, together with the shared state
after the call. -/
def SMART_PTR_copy (mallocOk lockOk : Bool) (w : World) : Bool × World :=
  if mallocOk = false then (false, w)
  else if lockOk = false then (false, w)
  else (true, { w with refCount := w.refCount + 1 })

/-- `SMART_PTR_delete` on a handle whose `lock` and `ref` are live: the source
calls `Lock(handle->lock)` and discards its result (line 138), so the
reference count is decremented whether or not the lock was acquired; when the
count reaches 0 the shared state is released through `free_ref`, which runs
the destructor. -/
def SMART_PTR_delete (lockOk : Bool) (w : World) : World :=
  let _ := lockOk  -- the Lock result is ignored by the source
  let w' := { w with refCount := w.refCount - 1 }
  if w'.refCount = 0 then free_ref w' else w'

/-- `SMART_PTR_get` on a live handle: returns NULL if the lock cannot be
acquired, otherwise the stored data pointer. -/
def SMART_PTR_get (lockOk : Bool) (w : World) : Option Nat :=
  if lockOk = false then none else w.data

/-- `SMART_PTR_has_value`: whether `SMART_PTR_get` returns a non-NULL
pointer. -/
def SMART_PTR_has_value (lockOk : Bool) (w : World) : Bool :=
  SMART_PTR_get lockOk w ≠ none

end SmartPtr

namespace MruCache

/-- `MRU_CACHE_MAX_ID_LEN` from mru_cache.h. -/
def MRU_CACHE_MAX_ID_LEN : Nat := 300

/-- The payload wrapped by a smart pointer, as seen by the cache
(`none` models a NULL data pointer). -/
abbrev Payload := Option Nat

/-- A `SMART_PTR_HANDLE` value at the cache interface: `none` models a NULL
handle, `some p` a live handle whose shared state wraps payload `p`.  The
cache operations never exercise a handle's internal lock failure on reads
(its lock is assumed acquirable); clone failures are passed in explicitly. -/
abbrev HandleV := Option Payload

/-- `SMART_PTR_get` as used by the cache: NULL handle yields NULL, otherwise
the wrapped payload. -/
def sptr_get (h : HandleV) : Payload :=
  match h with
  | none => none
  | some p => p

/-- `SMART_PTR_has_value` as used by the cache gate in `MRU_CACHE_add`. -/
def sptr_has_value (h : HandleV) : Bool :=
  (sptr_get h).isSome

/-- `SMART_PTR_copy` as used by the cache: cloning a NULL handle yields NULL;
cloning a live handle yields a handle over the same shared payload, or NULL
when the clone's allocation/lock step fails (`ok = false`). -/
def sptr_copy (ok : Bool) (h : HandleV) : HandleV :=
  match h with
  | none => none
  | some p => if ok then some p else none

/-- A cache entry (`MRU_CACHE_ENTRY`): owned id string, owned value handle,
creation timestamp and per-entry expiry seconds. -/
structure Entry where
  id : List Nat
  dataHandle : HandleV
  created : Int
  expiryInSec : Int
deriving Repr, DecidableEq

/-- The cache (`MRU_CACHE`): capacity, entry counter, and the recency-ordered
entry sequence (head of `entries` = front of the doubly linked list = most
recently used). -/
structure Cache where
  maxItems : Int
  numItems : Int
  entries : List Entry
deriving Repr, DecidableEq

/-- Result (as a Bool, `true` iff `strncmp(a, b, n) == 0`) of comparing two
NUL-terminated NUL-free byte strings for at most `n` bytes: the end of a list
is its NUL terminator, so exhausting both lists (or the byte budget) means
equality, and exhausting exactly one means a NUL byte against a non-NUL
byte. -/
def strncmp0 : List Nat → List Nat → Nat → Bool
  | _, _, 0 => true
  | [], [], _ + 1 => true
  | [], _ :: _, _ + 1 => false
  | _ :: _, [], _ + 1 => false
  | a :: as, b :: bs, n + 1 => a = b && strncmp0 as bs n

/-- `find` (smart_ptr.c, lines 302-334) with non-NULL arguments: walks the
list from the front comparing ids with `strncmp(id, current->id,
MRU_CACHE_MAX_ID_LEN)` — but the loop body ends in an unconditional `break`
(line 328), so only the first node is ever examined.  Returns the found
entry together with its position (the node pointer); `none` when the first
node does not match or the list is empty.  The int status of `find` is 0
whenever its arguments are non-NULL, so callers' `if (ret)` checks never
fire and are not modelled. -/
def find (id : List Nat) (entries : List Entry) : Option (Nat × Entry) :=
  match entries with
  | [] => none
  | current :: _ =>
    if strncmp0 id current.id MRU_CACHE_MAX_ID_LEN then some (0, current) else none

/-- The lookup contract stated by the specification (full linear scan of the
recency-ordered sequence, first match wins); written to compare with the
source's `find`, whose unconditional `break` stops the scan at the first
node. -/
def findFullScan (id : List Nat) (entries : List Entry) : Option (Nat × Entry) :=
  match entries with
  | [] => none
  | current :: rest =>
    if strncmp0 id current.id MRU_CACHE_MAX_ID_LEN then some (0, current)
    else match findFullScan id rest with
      | none => none
      | some (i, e) => some (i + 1, e)

/-- `is_expired`: negative `expiryInSec` never expires; otherwise expired
exactly when `difftime(now, created)` strictly exceeds `expiryInSec`. -/
def is_expired (now : Int) (entry : Entry) : Bool :=
  if entry.expiryInSec < 0 then false
  else decide (now - entry.created > entry.expiryInSec)

/-- `remove_entry`: unlinks the node at position `i` and decrements
`numItems`. -/
def remove_entry (c : Cache) (i : Nat) : Cache :=
  { c with entries := c.entries.eraseIdx i, numItems := c.numItems - 1 }

/-- `insert_at_start`: links the entry at the head of the list and increments
`numItems`. -/
def insert_at_start (c : Cache) (e : Entry) : Cache :=
  { c with entries := e :: c.entries, numItems := c.numItems + 1 }

/-- `MRU_CACHE_new`: fails on negative `maxItems`, otherwise an empty cache
with the given capacity (the calloc is assumed to succeed). -/
def MRU_CACHE_new (maxItems : Int) : Option Cache :=
  if maxItems < 0 then none
  else some { maxItems := maxItems, numItems := 0, entries := [] }

/-- Environment outcomes for one `MRU_CACHE_add` call: whether the entry
calloc, the `SMART_PTR_copy` of the incoming handle, and the
`mallocAndStrcpy_s` of the id succeed. -/
structure AddEnv where
  allocEntryOk : Bool
  copyOk : Bool
  strcpyOk : Bool
deriving Repr, DecidableEq

/-- The capacity check at the end of `MRU_CACHE_add` (lines 446-453): after
the insertion, if `numItems > maxItems`, the single least-recently-used entry
— the tail of the list (`list.Blink`) — is unlinked and freed. -/
def capacity_evict (c : Cache) : Cache :=
  if c.numItems > c.maxItems then
    { c with entries := c.entries.dropLast, numItems := c.numItems - 1 }
  else c

/-- `MRU_CACHE_add` with a non-NULL cache handle and non-NULL id, transcribed
from lines 367-456: id-length gate, empty-payload success no-op, head-only
`find`, then either the fresh-entry path (calloc, timestamp, clone of the
incoming handle, id copy, insert at front) or the update path (clone the
incoming handle first, release the old one, refresh timestamp/expiry, move
to front), and finally the capacity eviction.  Returns (status, cache after
the call). -/
def MRU_CACHE_add (env : AddEnv) (now : Int) (c : Cache) (id : List Nat)
    (data : HandleV) (expiryTimeSec : Int) : Int × Cache :=
  if id.length > MRU_CACHE_MAX_ID_LEN then (failureCode, c)
  else if sptr_has_value data = false then (0, c)
  else
    match find id c.entries with
    | none =>
      if env.allocEntryOk = false then (failureCode, c)
      else
        match sptr_copy env.copyOk data with
        | none => (failureCode, c)
        | some payload =>
          if env.strcpyOk = false then (failureCode, c)
          else
            let entry : Entry :=
              { id := id, dataHandle := some payload, created := now,
                expiryInSec := expiryTimeSec }
            (0, capacity_evict (insert_at_start c entry))
    | some (i, old) =>
      match sptr_copy env.copyOk data with
      | none => (failureCode, c)
      | some payload =>
        let entry : Entry :=
          { id := old.id, dataHandle := some payload, created := now,
            expiryInSec := expiryTimeSec }
        (0, capacity_evict (insert_at_start (remove_entry c i) entry))

/-- `get_from_cache` with non-NULL cache, id and out-slot, transcribed from
lines 458-499: id-length gate, head-only `find`; not found, or found expired
while not including expired entries, sets the out pointer to NULL; otherwise
the entry is moved to the front and the out pointer receives a clone of its
value handle.  Returns (status, cache after the call, value written to the
out pointer — `none` when the call failed before writing it). -/
def get_from_cache (now : Int) (copyOk : Bool) (c : Cache) (includeExpired : Bool)
    (id : List Nat) : Int × Cache × Option HandleV :=
  if id.length > MRU_CACHE_MAX_ID_LEN then (failureCode, c, none)
  else
    match find id c.entries with
    | none => (0, c, some none)
    | some (i, entry) =>
      if includeExpired = false ∧ is_expired now entry then (0, c, some none)
      else
        (0, insert_at_start (remove_entry c i) entry,
          some (sptr_copy copyOk entry.dataHandle))

/-- `MRU_CACHE_get`: `get_from_cache` excluding expired entries. -/
def MRU_CACHE_get (now : Int) (copyOk : Bool) (c : Cache) (id : List Nat) :
    Int × Cache × Option HandleV :=
  get_from_cache now copyOk c false id

/-- `MRU_CACHE_get_include_expired`: `get_from_cache` including expired
entries. -/
def MRU_CACHE_get_include_expired (now : Int) (copyOk : Bool) (c : Cache)
    (id : List Nat) : Int × Cache × Option HandleV :=
  get_from_cache now copyOk c true id

/-- `MRU_CACHE_size` with non-NULL arguments: success, reporting
`numItems`. -/
def MRU_CACHE_size (c : Cache) : Int × Int :=
  (0, c.numItems)

/-- The scan loop of `MRU_CACHE_prune` (lines 536-547), walking the entry
sequence front to back and unlinking/freeing each expired entry
(`remove_entry` decrements the item counter, threaded through as `n`). -/
def pruneLoop (now : Int) : List Entry → Int → List Entry × Int
  | [], n => ([], n)
  | e :: rest, n =>
    if is_expired now e then pruneLoop now rest (n - 1)
    else
      let r := pruneLoop now rest n
      (e :: r.1, r.2)

/-- `MRU_CACHE_prune` with a non-NULL handle: removes every expired entry. -/
def MRU_CACHE_prune (now : Int) (c : Cache) : Cache :=
  let r := pruneLoop now c.entries c.numItems
  { c with entries := r.1, numItems := r.2 }

/-- `MRU_CACHE_clear` with a non-NULL handle: frees every entry and resets
the cache to empty. -/
def MRU_CACHE_clear (c : Cache) : Cache :=
  { c with entries := [], numItems := 0 }

end MruCache

/-! ## Helper lemmas -/

namespace MruCache

/-- `strncmp` of a NUL-free string with itself reports equality for any byte
budget. -/
theorem strncmp0_self (a : List Nat) (n : Nat) : strncmp0 a a n = true := by
  induction a generalizing n with
  | nil => cases n <;> rfl
  | cons x xs ih =>
    cases n with
    | zero => rfl
    | succ m => simp [strncmp0, ih]

/-- Inversion for the source's head-only `find`: a successful lookup returns
the first entry, at position 0, and that entry's id compares equal to the
query. -/
theorem find_eq_some_iff (id : List Nat) (entries : List Entry) (i : Nat) (e : Entry) :
    find id entries = some (i, e) ↔
      i = 0 ∧ ∃ rest, entries = e :: rest ∧
        strncmp0 id e.id MRU_CACHE_MAX_ID_LEN = true := by
  constructor
  · intro h
    cases entries with
    | nil => simp [find] at h
    | cons a t =>
      by_cases hm : strncmp0 id a.id MRU_CACHE_MAX_ID_LEN = true
      · simp [find, hm] at h
        obtain ⟨hi, ha⟩ := h
        exact ⟨hi.symm, t, by rw [ha], by rw [← ha]; exact hm⟩
      · simp [find, hm] at h
  · rintro ⟨rfl, rest, rfl, hm⟩
    simp [find, hm]

end MruCache

/-! ## Claim theorems -/

/-- Claim C1 (code_bug): the lookup used by get, getIncludeExpired and add is
claimed to scan the whole recency-ordered sequence and locate a match at any
position.  The source's `find` breaks out of its loop unconditionally after
the first node: on a cache whose entries are (front to back) ids `[1]` and
`[2]`, looking up `[2]` finds nothing, although the spec's full-scan lookup
finds it at position 1, and consequently `MRU_CACHE_get` reports "no value"
for a stored id. -/
theorem find_scans_only_first_node :
    MruCache.find [2]
        [⟨[1], some (some 7), 0, -1⟩, ⟨[2], some (some 8), 0, -1⟩] = none
    ∧ MruCache.findFullScan [2]
        [⟨[1], some (some 7), 0, -1⟩, ⟨[2], some (some 8), 0, -1⟩]
        = some (1, ⟨[2], some (some 8), 0, -1⟩)
    ∧ (MruCache.MRU_CACHE_get 0 true
        ⟨3, 2, [⟨[1], some (some 7), 0, -1⟩, ⟨[2], some (some 8), 0, -1⟩]⟩
        [2]).2.2 = some none := by
  refine ⟨rfl, rfl, rfl⟩

/-- Claim C2 (code_bug): no two entries may ever share an id — an add of a
present id must update in place.  Because the source's `find` inspects only
the first node, adding id `[1]`, then `[2]`, then `[1]` again to an empty
3-capacity cache creates a second entry with id `[1]` instead of updating
the existing one: the final id sequence is `[[1], [2], [1]]`, which is not
duplicate-free. -/
theorem mru_cache_duplicate_ids :
    ((MruCache.MRU_CACHE_add ⟨true, true, true⟩ 0
        (MruCache.MRU_CACHE_add ⟨true, true, true⟩ 0
          (MruCache.MRU_CACHE_add ⟨true, true, true⟩ 0
            ⟨3, 0, []⟩ [1] (some (some 5)) (-1)).2
          [2] (some (some 5)) (-1)).2
        [1] (some (some 5)) (-1)).2.entries.map MruCache.Entry.id
      = [[1], [2], [1]])
    ∧ ¬ ((MruCache.MRU_CACHE_add ⟨true, true, true⟩ 0
        (MruCache.MRU_CACHE_add ⟨true, true, true⟩ 0
          (MruCache.MRU_CACHE_add ⟨true, true, true⟩ 0
            ⟨3, 0, []⟩ [1] (some (some 5)) (-1)).2
          [2] (some (some 5)) (-1)).2
        [1] (some (some 5)) (-1)).2.entries.map MruCache.Entry.id).Nodup := by
  refine ⟨rfl, by decide⟩

/-- Claim C8 (confirmed): after `create(p, d)` (which rejects an absent
destructor and starts the shared refCount at 1), one clone and two releases
(all allocations and lock acquisitions succeeding), the destructor log stays
empty until the second release — so `d` never runs while `refCount > 0` —
and after the second release it contains exactly one invocation, of `d` with
argument `p`. -/
theorem smart_ptr_destructor_exactly_once (p : Option Nat) (d : Nat) :
    SmartPtr.SMART_PTR_create true true true p none = none
    ∧ SmartPtr.SMART_PTR_create true true true p (some d)
        = some ⟨1, p, d, []⟩
    ∧ SmartPtr.SMART_PTR_copy true true ⟨1, p, d, []⟩
        = (true, ⟨2, p, d, []⟩)
    ∧ SmartPtr.SMART_PTR_delete true ⟨2, p, d, []⟩ = ⟨1, p, d, []⟩
    ∧ SmartPtr.SMART_PTR_delete true ⟨1, p, d, []⟩ = ⟨0, none, d, [(d, p)]⟩ := by
  refine ⟨rfl, rfl, rfl, rfl, rfl⟩

/-- Claim C3 (corrected), counterexample: the claim says a release whose lock
acquisition fails leaves the refCount unchanged.  `SMART_PTR_delete` discards
the result of `Lock` (smart_ptr.c line 138) and decrements anyway: on shared
state with refCount 2, a release under a failed lock acquisition changes the
refCount (to 1). -/
theorem smart_ptr_release_decrements_despite_lock_failure :
    (SmartPtr.SMART_PTR_delete false ⟨2, some 5, 0, []⟩).refCount
      ≠ (⟨2, some 5, 0, []⟩ : SmartPtr.World).refCount := by
  decide

/-- Claim C3 (corrected, amended): if the lock cannot be acquired then a
clone fails and leaves the refCount unchanged from before the call; a
release, whose lock-acquisition result is discarded by the source, applies
its decrement to the refCount regardless of whether the lock was acquired. -/
theorem smart_ptr_lock_failure_refcount (w : SmartPtr.World) (mallocOk lockOk : Bool) :
    SmartPtr.SMART_PTR_copy mallocOk false w = (false, w)
    ∧ (SmartPtr.SMART_PTR_delete lockOk w).refCount = w.refCount - 1 := by
  constructor
  · cases mallocOk <;> rfl
  · simp only [SmartPtr.SMART_PTR_delete, SmartPtr.free_ref]
    split <;> rfl

/-- Claim C9 (confirmed): for a valid cache and id, an add whose value handle
carries no payload (a NULL handle or a handle wrapping a NULL pointer)
returns success and leaves the cache exactly as it was. -/
theorem mru_cache_add_empty_payload_noop (env : MruCache.AddEnv) (now : Int)
    (c : MruCache.Cache) (id : List Nat) (data : MruCache.HandleV) (exp : Int)
    (hid : id.length ≤ MruCache.MRU_CACHE_MAX_ID_LEN)
    (hval : MruCache.sptr_has_value data = false) :
    MruCache.MRU_CACHE_add env now c id data exp = (0, c) := by
  unfold MruCache.MRU_CACHE_add
  rw [if_neg (by omega), if_pos hval]

/-- Witness for C9: adding a NULL value handle to a concrete cache succeeds
and changes nothing. -/
theorem mru_cache_add_empty_payload_noop_witness :
    MruCache.MRU_CACHE_add ⟨true, true, true⟩ 0 ⟨2, 0, []⟩ [1] none (-1)
      = (0, ⟨2, 0, []⟩) :=
  mru_cache_add_empty_payload_noop ⟨true, true, true⟩ 0 ⟨2, 0, []⟩ [1] none (-1)
    (by decide) (by decide)

namespace MruCache

/-- Case analysis of `MRU_CACHE_add`: every call either fails leaving the
cache untouched, succeeds as the empty-payload no-op, inserts a fresh entry
at the front followed by the capacity check, or (head-only find hit) rebuilds
the first entry at the front followed by the capacity check. -/
theorem MRU_CACHE_add_cases (env : AddEnv) (now : Int) (c : Cache) (id : List Nat)
    (data : HandleV) (exp : Int) :
    (MRU_CACHE_add env now c id data exp = (failureCode, c)
      ∧ (MRU_CACHE_MAX_ID_LEN < id.length
         ∨ env.allocEntryOk = false
         ∨ sptr_copy env.copyOk data = none
         ∨ env.strcpyOk = false))
    ∨ (MRU_CACHE_add env now c id data exp = (0, c)
        ∧ sptr_has_value data = false)
    ∨ (find id c.entries = none
        ∧ ∃ payload, sptr_copy env.copyOk data = some payload
          ∧ MRU_CACHE_add env now c id data exp =
              (0, capacity_evict (insert_at_start c ⟨id, some payload, now, exp⟩)))
    ∨ (∃ old rest payload, c.entries = old :: rest
        ∧ strncmp0 id old.id MRU_CACHE_MAX_ID_LEN = true
        ∧ sptr_copy env.copyOk data = some payload
        ∧ MRU_CACHE_add env now c id data exp =
            (0, capacity_evict (insert_at_start (remove_entry c 0)
              ⟨old.id, some payload, now, exp⟩))) := by
  unfold MRU_CACHE_add
  split
  next hgt => exact Or.inl ⟨rfl, Or.inl hgt⟩
  split
  next hv => exact Or.inr (Or.inl ⟨rfl, hv⟩)
  split
  next hfind =>
    split
    next ha => exact Or.inl ⟨rfl, Or.inr (Or.inl ha)⟩
    split
    next hcopy => exact Or.inl ⟨rfl, Or.inr (Or.inr (Or.inl hcopy))⟩
    next payload hcopy =>
      split
      next hs => exact Or.inl ⟨rfl, Or.inr (Or.inr (Or.inr hs))⟩
      · exact Or.inr (Or.inr (Or.inl ⟨hfind, payload, hcopy, rfl⟩))
  next i old hfind =>
    split
    next hcopy => exact Or.inl ⟨rfl, Or.inr (Or.inr (Or.inl hcopy))⟩
    next payload hcopy =>
      obtain ⟨hi, rest, hent, hm⟩ := (find_eq_some_iff id c.entries i old).mp hfind
      subst hi
      exact Or.inr (Or.inr (Or.inr ⟨old, rest, payload, hent, hm, hcopy, rfl⟩))

end MruCache

/-- Claim C5 (confirmed): whenever `MRU_CACHE_add` returns a failure status,
the cache — entries, their order and contents, and `numItems` — is exactly
what it was before the call. -/
theorem mru_cache_add_failure_frame (env : MruCache.AddEnv) (now : Int)
    (c : MruCache.Cache) (id : List Nat) (data : MruCache.HandleV) (exp : Int)
    (hfail : (MruCache.MRU_CACHE_add env now c id data exp).1 ≠ 0) :
    (MruCache.MRU_CACHE_add env now c id data exp).2 = c := by
  rcases MruCache.MRU_CACHE_add_cases env now c id data exp with
    ⟨h, _⟩ | ⟨h, _⟩ | ⟨_, _, _, h⟩ | ⟨_, _, _, _, _, _, h⟩
  · rw [h]
  · exact absurd (by rw [h]) hfail
  · exact absurd (by rw [h]) hfail
  · exact absurd (by rw [h]) hfail

/-- Witness for C5: with a present payload but a failing clone of the
incoming handle, a concrete add fails and the cache is returned exactly as
it was. -/
theorem mru_cache_add_failure_frame_witness :
    (MruCache.MRU_CACHE_add ⟨true, false, true⟩ 0
        ⟨2, 1, [⟨[3], some (some 9), 0, -1⟩]⟩ [1] (some (some 5)) (-1)).2
      = ⟨2, 1, [⟨[3], some (some 9), 0, -1⟩]⟩ :=
  mru_cache_add_failure_frame ⟨true, false, true⟩ 0
    ⟨2, 1, [⟨[3], some (some 9), 0, -1⟩]⟩ [1] (some (some 5)) (-1) (by decide)

/-- Claim C4 (confirmed): `MRU_CACHE_new` rejects a negative capacity; for a
cache satisfying its counter invariants, after any add (completed or failed)
`numItems` is at most `maxItems`, at most one pre-existing entry is lost per
add (the tail eviction), and on a capacity-0 cache every add leaves the
cache empty. -/
theorem mru_cache_capacity_bound (env : MruCache.AddEnv) (now : Int)
    (c : MruCache.Cache) (id : List Nat) (data : MruCache.HandleV) (exp : Int)
    (h1 : c.numItems ≤ c.maxItems) (h2 : c.numItems = c.entries.length) :
    MruCache.MRU_CACHE_new (-1) = none
    ∧ (MruCache.MRU_CACHE_add env now c id data exp).2.numItems ≤ c.maxItems
    ∧ c.entries.length
        ≤ (MruCache.MRU_CACHE_add env now c id data exp).2.entries.length + 1
    ∧ (c.maxItems = 0 →
        (MruCache.MRU_CACHE_add env now c id data exp).2.entries = []
        ∧ (MruCache.MRU_CACHE_add env now c id data exp).2.numItems = 0) := by
  refine ⟨rfl, ?_⟩
  rcases MruCache.MRU_CACHE_add_cases env now c id data exp with
    ⟨h, _⟩ | ⟨h, _⟩ | ⟨hfind, payload, hcopy, h⟩ | ⟨old, rest, payload, hent, hm, hcopy, h⟩ <;>
    rw [h] <;> dsimp only
  · exact ⟨h1, by omega, fun hm0 => ⟨List.length_eq_zero.mp (by omega), by omega⟩⟩
  · exact ⟨h1, by omega, fun hm0 => ⟨List.length_eq_zero.mp (by omega), by omega⟩⟩
  · simp only [MruCache.capacity_evict, MruCache.insert_at_start]
    split <;> (try dsimp only)
    next hover =>
      refine ⟨by omega, ?_, fun hm0 => ⟨?_, by omega⟩⟩
      · rw [List.length_dropLast, List.length_cons]
        omega
      · have hnil : c.entries = [] := List.length_eq_zero.mp (by omega)
        rw [hnil]
        rfl
    next hover =>
      rw [not_lt] at hover
      refine ⟨by omega, by simp only [List.length_cons]; omega, fun hm0 => ?_⟩
      exfalso
      omega
  · have hlen : c.entries.length = rest.length + 1 := by rw [hent, List.length_cons]
    simp only [MruCache.capacity_evict, MruCache.insert_at_start,
      MruCache.remove_entry, hent, List.eraseIdx_cons_zero]
    split <;> (try dsimp only)
    next hover =>
      exfalso
      try dsimp only at hover
      omega
    next hover =>
      rw [not_lt] at hover
      try dsimp only at hover
      refine ⟨by omega, by simp only [List.length_cons]; omega, fun hm0 => ?_⟩
      exfalso
      omega

/-- Witness for C4: the invariant hypotheses hold of a concrete capacity-0
cache, and the conjunction follows by applying the theorem there. -/
theorem mru_cache_capacity_bound_witness :
    MruCache.MRU_CACHE_new (-1) = none
    ∧ (MruCache.MRU_CACHE_add ⟨true, true, true⟩ 0 ⟨0, 0, []⟩ [1]
        (some (some 5)) (-1)).2.numItems ≤ (0 : Int)
    ∧ (([] : List MruCache.Entry).length
        ≤ (MruCache.MRU_CACHE_add ⟨true, true, true⟩ 0 ⟨0, 0, []⟩ [1]
            (some (some 5)) (-1)).2.entries.length + 1)
    ∧ ((0 : Int) = 0 →
        (MruCache.MRU_CACHE_add ⟨true, true, true⟩ 0 ⟨0, 0, []⟩ [1]
          (some (some 5)) (-1)).2.entries = []
        ∧ (MruCache.MRU_CACHE_add ⟨true, true, true⟩ 0 ⟨0, 0, []⟩ [1]
            (some (some 5)) (-1)).2.numItems = 0) :=
  mru_cache_capacity_bound ⟨true, true, true⟩ 0 ⟨0, 0, []⟩ [1]
    (some (some 5)) (-1) (by decide) (by decide)

namespace MruCache

/-- The prune loop keeps exactly the unexpired entries, in their original
relative order, and decrements the counter once per removed entry. -/
theorem pruneLoop_eq (now : Int) (l : List Entry) (n : Int) :
    pruneLoop now l n
      = (l.filter (fun e => !(is_expired now e)),
         n - (l.countP (fun e => is_expired now e) : Int)) := by
  induction l generalizing n with
  | nil => simp [pruneLoop]
  | cons e rest ih =>
    simp only [pruneLoop]
    by_cases h : is_expired now e = true
    · rw [if_pos h, ih]
      simp only [List.filter_cons, List.countP_cons, h]
      refine Prod.ext rfl ?_
      simp only [Bool.not_true, Bool.false_eq_true, if_false, if_true]
      push_cast
      ring
    · rw [if_neg h, ih]
      simp only [List.filter_cons, List.countP_cons, h]
      refine Prod.ext ?_ ?_ <;> simp [h]

end MruCache

/-- Claim C10 (confirmed): `MRU_CACHE_prune` removes exactly the expired
entries: the surviving entry sequence is the original sequence filtered to
its unexpired entries — every survivor keeps its id, value handle, creation
time and expiry unchanged and the relative recency order is preserved — the
counter drops by the number of expired entries, and the capacity is
untouched. -/
theorem mru_cache_prune_removes_exactly_expired (now : Int) (c : MruCache.Cache) :
    (MruCache.MRU_CACHE_prune now c).entries
        = c.entries.filter (fun e => !(MruCache.is_expired now e))
    ∧ (MruCache.MRU_CACHE_prune now c).numItems
        = c.numItems - (c.entries.countP (fun e => MruCache.is_expired now e) : Int)
    ∧ (MruCache.MRU_CACHE_prune now c).maxItems = c.maxItems := by
  unfold MruCache.MRU_CACHE_prune
  rw [MruCache.pruneLoop_eq]
  exact ⟨rfl, rfl, rfl⟩

/-- Claim C6 (confirmed): an entry with negative `expirySeconds` never
expires; one with nonnegative `expirySeconds` is expired exactly when its
wall-clock age strictly exceeds it.  When the lookup finds an expired entry,
a plain get returns "no value" with success and leaves the cache — entries,
order and counter — untouched, while getIncludeExpired moves nothing (the
found entry is already at the front) and returns a clone of its value
handle. -/
theorem mru_cache_expiry_semantics (now t : Int) (copyOk : Bool)
    (c : MruCache.Cache) (id : List Nat) (e e' : MruCache.Entry)
    (rest : List MruCache.Entry)
    (hid : id.length ≤ MruCache.MRU_CACHE_MAX_ID_LEN)
    (hc : c.entries = e :: rest)
    (hm : MruCache.strncmp0 id e.id MruCache.MRU_CACHE_MAX_ID_LEN = true)
    (hexp : MruCache.is_expired now e = true) :
    (e'.expiryInSec < 0 → MruCache.is_expired t e' = false)
    ∧ (0 ≤ e'.expiryInSec →
        (MruCache.is_expired t e' = true ↔ e'.expiryInSec < t - e'.created))
    ∧ MruCache.MRU_CACHE_get now copyOk c id = (0, c, some none)
    ∧ MruCache.MRU_CACHE_get_include_expired now copyOk c id
        = (0, c, some (MruCache.sptr_copy copyOk e.dataHandle)) := by
  refine ⟨?_, ?_, ?_, ?_⟩
  · intro h
    unfold MruCache.is_expired
    rw [if_pos h]
  · intro h
    unfold MruCache.is_expired
    rw [if_neg (by omega)]
    simp [gt_iff_lt]
  · unfold MruCache.MRU_CACHE_get MruCache.get_from_cache
    rw [if_neg (by omega), hc]
    simp only [MruCache.find, hm, if_true]
    rw [if_pos (⟨by simp, hexp⟩ : _ ∧ _)]
  · have hcc : MruCache.insert_at_start (MruCache.remove_entry c 0) e = c := by
      cases c with
      | mk mx n es =>
        simp only [MruCache.Cache.mk.injEq] at hc ⊢
        subst hc
        simp [MruCache.insert_at_start, MruCache.remove_entry]
    unfold MruCache.MRU_CACHE_get_include_expired MruCache.get_from_cache
    rw [if_neg (by omega), hc]
    simp only [MruCache.find, hm, if_true]
    rw [if_neg (by simp), hcc]

/-- Witness for C6: a concrete single-entry cache whose entry (expiry 5,
created at 0) is looked up at time 6. -/
theorem mru_cache_expiry_semantics_witness :
    ((-1 : Int) < 0 → MruCache.is_expired 6 ⟨[9], none, 0, -1⟩ = false)
    ∧ ((0 : Int) ≤ -1 →
        (MruCache.is_expired 6 ⟨[9], none, 0, -1⟩ = true ↔ (-1 : Int) < 6 - 0))
    ∧ MruCache.MRU_CACHE_get 6 true ⟨2, 1, [⟨[1], some (some 7), 0, 5⟩]⟩ [1]
        = (0, ⟨2, 1, [⟨[1], some (some 7), 0, 5⟩]⟩, some none)
    ∧ MruCache.MRU_CACHE_get_include_expired 6 true
        ⟨2, 1, [⟨[1], some (some 7), 0, 5⟩]⟩ [1]
        = (0, ⟨2, 1, [⟨[1], some (some 7), 0, 5⟩]⟩, some (some (some 7))) :=
  mru_cache_expiry_semantics 6 6 true ⟨2, 1, [⟨[1], some (some 7), 0, 5⟩]⟩ [1]
    ⟨[1], some (some 7), 0, 5⟩ ⟨[9], none, 0, -1⟩ []
    (by decide) rfl (by decide) (by decide)

namespace MruCache

/-- A get whose id matches the front entry (the only position the source's
lookup inspects) and finds it unexpired succeeds and hands out a clone of
that entry's value handle. -/
theorem get_head_hit (now : Int) (copyOk : Bool) (c : Cache) (id : List Nat)
    (e : Entry) (rest : List Entry)
    (hid : id.length ≤ MRU_CACHE_MAX_ID_LEN)
    (hc : c.entries = e :: rest)
    (hm : strncmp0 id e.id MRU_CACHE_MAX_ID_LEN = true)
    (hexp : is_expired now e = false) :
    (MRU_CACHE_get now copyOk c id).1 = 0
    ∧ (MRU_CACHE_get now copyOk c id).2.2 = some (sptr_copy copyOk e.dataHandle) := by
  unfold MRU_CACHE_get get_from_cache
  rw [if_neg (by omega), hc]
  simp only [find, hm, if_true]
  rw [if_neg (by simp [hexp])]
  exact ⟨rfl, rfl⟩

/-- Inserting at the front and applying the capacity check leaves the
inserted entry at the front: the eviction, when it fires on a cache
satisfying the counter invariant with positive capacity, removes the tail of
a list of length at least two. -/
theorem capacity_evict_insert_head (c : Cache) (e : Entry)
    (hmax : 1 ≤ c.maxItems) (h1 : c.numItems ≤ c.maxItems)
    (h2 : c.numItems = c.entries.length) :
    ∃ rest, (capacity_evict (insert_at_start c e)).entries = e :: rest := by
  unfold capacity_evict insert_at_start
  split
  next hover =>
    dsimp only at hover ⊢
    cases hes : c.entries with
    | nil =>
      exfalso
      rw [hes] at h2
      simp at h2
      omega
    | cons a t =>
      exact ⟨(a :: t).dropLast, rfl⟩
  next =>
    exact ⟨c.entries, rfl⟩

/-- Moving the front entry of a cache that satisfies the capacity invariant
back to the front (the update path of `add`) triggers no eviction: the new
front entry is followed by the old tail and the counter is unchanged. -/
theorem capacity_evict_insert_remove0 (c : Cache) (e old : Entry)
    (rest : List Entry) (hc : c.entries = old :: rest)
    (h1 : c.numItems ≤ c.maxItems) :
    (capacity_evict (insert_at_start (remove_entry c 0) e)).entries = e :: rest
    ∧ (capacity_evict (insert_at_start (remove_entry c 0) e)).numItems = c.numItems := by
  unfold capacity_evict insert_at_start remove_entry
  rw [hc]
  simp only [List.eraseIdx_cons_zero]
  split
  next hover =>
    exfalso
    try dsimp only at hover
    omega
  next =>
    refine ⟨rfl, ?_⟩
    try dsimp only
    omega

end MruCache

/-- Claim C7 (corrected), counterexample: three concrete refutations of the
claim as stated.  (i) On a capacity-0 cache, add(id, v, -1) succeeds but the
immediate get finds no value (the entry was evicted at once), so the round
trip fails.  (ii) On a full capacity-1 cache, adding a fresh id leaves
size() at 1 — the tail eviction offsets the insert, not +1.  (iii) When the
id sits behind the front entry, the head-only lookup misses it and add
creates a duplicate: size() grows by 1 although the id was already
present. -/
theorem mru_cache_round_trip_counterexample :
    ((MruCache.MRU_CACHE_add ⟨true, true, true⟩ 0 ⟨0, 0, []⟩ [1]
        (some (some 5)) (-1)).1 = 0
      ∧ (MruCache.MRU_CACHE_get 0 true
          (MruCache.MRU_CACHE_add ⟨true, true, true⟩ 0 ⟨0, 0, []⟩ [1]
            (some (some 5)) (-1)).2 [1]).2.2 = some none)
    ∧ (MruCache.MRU_CACHE_add ⟨true, true, true⟩ 0
        ⟨1, 1, [⟨[3], some (some 9), 0, -1⟩]⟩ [1]
        (some (some 5)) (-1)).2.numItems = 1
    ∧ (MruCache.MRU_CACHE_add ⟨true, true, true⟩ 0
        ⟨3, 2, [⟨[2], some (some 9), 0, -1⟩, ⟨[1], some (some 8), 0, -1⟩]⟩ [1]
        (some (some 5)) (-1)).2.numItems = 3 := by
  refine ⟨⟨rfl, rfl⟩, rfl, rfl⟩

/-- Claim C7 (corrected, amended): on a cache satisfying its counter
invariants with capacity at least 1, with all internal allocations and
clones succeeding, add(id, v, -1) with a non-absent payload immediately
followed by get(id) succeeds and returns a value handle whose payload equals
v's payload; the add increases size() by exactly 1 when the (head-only)
lookup misses the id and the cache is below capacity, and by exactly 0 when
the lookup hits the id at the most-recently-used position. -/
theorem mru_cache_round_trip_amended (now : Int) (c : MruCache.Cache)
    (id : List Nat) (p : Nat)
    (hmax : 1 ≤ c.maxItems)
    (h1 : c.numItems ≤ c.maxItems)
    (h2 : c.numItems = c.entries.length)
    (hid : id.length ≤ MruCache.MRU_CACHE_MAX_ID_LEN) :
    (MruCache.MRU_CACHE_add ⟨true, true, true⟩ now c id (some (some p)) (-1)).1 = 0
    ∧ (MruCache.MRU_CACHE_get now true
        (MruCache.MRU_CACHE_add ⟨true, true, true⟩ now c id
          (some (some p)) (-1)).2 id).1 = 0
    ∧ (MruCache.MRU_CACHE_get now true
        (MruCache.MRU_CACHE_add ⟨true, true, true⟩ now c id
          (some (some p)) (-1)).2 id).2.2 = some (some (some p))
    ∧ (MruCache.find id c.entries = none → c.numItems < c.maxItems →
        (MruCache.MRU_CACHE_add ⟨true, true, true⟩ now c id
          (some (some p)) (-1)).2.numItems = c.numItems + 1)
    ∧ (MruCache.find id c.entries ≠ none →
        (MruCache.MRU_CACHE_add ⟨true, true, true⟩ now c id
          (some (some p)) (-1)).2.numItems = c.numItems) := by
  rcases MruCache.MRU_CACHE_add_cases ⟨true, true, true⟩ now c id
      (some (some p)) (-1) with
    ⟨h, hcause⟩ | ⟨h, hval⟩ | ⟨hfind, payload, hcopy, h⟩ |
      ⟨old, rest, payload, hent, hm, hcopy, h⟩
  · exfalso
    rcases hcause with hgt | ha | hcp | hs
    · omega
    · exact absurd ha (by simp)
    · exact absurd hcp (by simp [MruCache.sptr_copy])
    · exact absurd hs (by simp)
  · exact absurd hval (by simp [MruCache.sptr_has_value, MruCache.sptr_get])
  · have hpay : payload = some p := by
      simp [MruCache.sptr_copy] at hcopy
      exact hcopy.symm
    subst hpay
    obtain ⟨rest', hhead⟩ :=
      MruCache.capacity_evict_insert_head c ⟨id, some (some p), now, -1⟩ hmax h1 h2
    have hg := MruCache.get_head_hit now true
      (MruCache.capacity_evict (MruCache.insert_at_start c ⟨id, some (some p), now, -1⟩))
      id ⟨id, some (some p), now, -1⟩ rest' hid hhead
      (MruCache.strncmp0_self id MruCache.MRU_CACHE_MAX_ID_LEN) rfl
    refine ⟨by rw [h], ?_, ?_, ?_, ?_⟩
    · rw [h]
      exact hg.1
    · rw [h]
      exact hg.2
    · intro _ hlt
      rw [h]
      dsimp only
      simp only [MruCache.capacity_evict, MruCache.insert_at_start]
      split
      next hover =>
        exfalso
        try dsimp only at hover
        omega
      next => rfl
    · intro hne
      exact absurd hfind hne
  · have hpay : payload = some p := by
      simp [MruCache.sptr_copy] at hcopy
      exact hcopy.symm
    subst hpay
    have hfound : MruCache.find id c.entries = some (0, old) := by
      rw [hent]
      simp [MruCache.find, hm]
    have hcr := MruCache.capacity_evict_insert_remove0 c
      ⟨old.id, some (some p), now, -1⟩ old rest hent h1
    have hg := MruCache.get_head_hit now true
      (MruCache.capacity_evict (MruCache.insert_at_start (MruCache.remove_entry c 0)
        ⟨old.id, some (some p), now, -1⟩))
      id ⟨old.id, some (some p), now, -1⟩ rest hid hcr.1 hm rfl
    refine ⟨by rw [h], ?_, ?_, ?_, ?_⟩
    · rw [h]
      exact hg.1
    · rw [h]
      exact hg.2
    · intro hfn _
      rw [hfn] at hfound
      exact absurd hfound (by simp)
    · intro _
      rw [h]
      exact hcr.2

/-- Witness for C7 (amended): an empty capacity-1 cache, id `[1]`, payload
5. -/
theorem mru_cache_round_trip_amended_witness :
    (MruCache.MRU_CACHE_add ⟨true, true, true⟩ 0 ⟨1, 0, []⟩ [1]
        (some (some 5)) (-1)).1 = 0
    ∧ (MruCache.MRU_CACHE_get 0 true
        (MruCache.MRU_CACHE_add ⟨true, true, true⟩ 0 ⟨1, 0, []⟩ [1]
          (some (some 5)) (-1)).2 [1]).1 = 0
    ∧ (MruCache.MRU_CACHE_get 0 true
        (MruCache.MRU_CACHE_add ⟨true, true, true⟩ 0 ⟨1, 0, []⟩ [1]
          (some (some 5)) (-1)).2 [1]).2.2 = some (some (some 5))
    ∧ (MruCache.find [1] ([] : List MruCache.Entry) = none → (0 : Int) < 1 →
        (MruCache.MRU_CACHE_add ⟨true, true, true⟩ 0 ⟨1, 0, []⟩ [1]
          (some (some 5)) (-1)).2.numItems = 0 + 1)
    ∧ (MruCache.find [1] ([] : List MruCache.Entry) ≠ none →
        (MruCache.MRU_CACHE_add ⟨true, true, true⟩ 0 ⟨1, 0, []⟩ [1]
          (some (some 5)) (-1)).2.numItems = 0) :=
  mru_cache_round_trip_amended 0 ⟨1, 0, []⟩ [1] 5
    (by decide) (by decide) (by decide) (by decide)
